import Mathlib

/-!
Verification development for the Auto-Audit Pro batch compliance engine
(`app.py`).  The pipeline is embedded shallowly: document text is a
`List Char`, monetary values are rationals, and the regex-based money
scanner, the word-boundary blacklist matcher, the risk-scoring engine and
the batch orchestrator are translated into executable Lean functions.
-/

namespace AutoAudit

/-! ## Amount Detector (`extract_financials`, app.py lines 30-52)

The source regex is
`(?:\$|USD)\s*([0-9]{1,3}(?:,[0-9]{3})*(?:\.[0-9]{2})?|[0-9]+(?:\.[0-9]{2})?)|([0-9]{1,3}(?:,[0-9]{3})*(?:\.[0-9]{2})?)\s*USD`.
We embed Python `re.findall` semantics for this fixed pattern: left-to-right
scan, branch `A` (currency marker first) tried before branch `B`
(number followed by `USD`), greedy quantifiers with backtracking realised by
enumerating candidate token extents in the engine's preference order. -/

/-- Python `\s` on the characters that occur in ASCII documents. -/
def pyIsSpace (c : Char) : Bool :=
  c = ' ' || c = '\t' || c = '\n' || c = '\r' || c = Char.ofNat 11 || c = Char.ofNat 12

/-- One thousands group `,[0-9]{3}`. -/
def takeGroup : List Char → Option (List Char × List Char)
  | ',' :: a :: b :: c :: rest =>
      if a.isDigit && b.isDigit && c.isDigit then some ([',', a, b, c], rest) else none
  | _ => none

/-- All extents of `(?:,[0-9]{3})*`, maximal (greedy) first, down to the
empty extent, paired with the remaining input. -/
def groupSeqs : List Char → Nat → List (List Char × List Char)
  | s, 0 => [([], s)]
  | s, fuel + 1 =>
      match takeGroup s with
      | none => [([], s)]
      | some (g, rest) =>
          ((groupSeqs rest fuel).map (fun p => (g ++ p.1, p.2))) ++ [([], s)]

/-- Extents of `(?:\.[0-9]{2})?`: the two-digit fraction when present
(preferred, greedy), then the empty extent. -/
def fracCandidates (s : List Char) : List (List Char × List Char) :=
  match s with
  | '.' :: a :: b :: rest =>
      if a.isDigit && b.isDigit then [(['.', a, b], rest), ([], s)] else [([], s)]
  | _ => [([], s)]

/-- Candidate matches of `[0-9]{1,3}(?:,[0-9]{3})*(?:\.[0-9]{2})?` at the head
of `s`, in backtracking preference order (more leading digits first, then more
thousands groups, then fraction present before absent). -/
def num1Candidates (s : List Char) : List (List Char × List Char) :=
  let avail := (s.takeWhile Char.isDigit).length
  let dmax := min avail 3
  ((List.range dmax).map (fun j => dmax - j)).flatMap (fun d =>
    ((groupSeqs (s.drop d) (s.drop d).length).flatMap (fun g =>
      (fracCandidates g.2).map (fun f => (s.take d ++ g.1 ++ f.1, f.2)))))

/-- Candidate matches of `[0-9]+(?:\.[0-9]{2})?` at the head of `s`,
in backtracking preference order. -/
def num2Candidates (s : List Char) : List (List Char × List Char) :=
  let avail := (s.takeWhile Char.isDigit).length
  ((List.range avail).map (fun j => avail - j)).flatMap (fun d =>
    (fracCandidates (s.drop d)).map (fun f => (s.take d ++ f.1, f.2)))

/-- Candidates for the first capture group (alternation: grouped form first,
then the plain digit-run form). -/
def g1Candidates (s : List Char) : List (List Char × List Char) :=
  num1Candidates s ++ num2Candidates s

/-- The currency marker `(?:\$|USD)`. -/
def matchMarker : List Char → Option (List Char)
  | '$' :: rest => some rest
  | 'U' :: 'S' :: 'D' :: rest => some rest
  | _ => none

/-- Branch `A`: marker, optional whitespace, then a number.  The pattern ends
after the group, so the first (greedy) candidate is the match.  Returns the
captured token and the rest of the text after the match. -/
def tryBranchA (s : List Char) : Option (List Char × List Char) :=
  (matchMarker s).bind (fun r1 =>
    match g1Candidates (r1.dropWhile pyIsSpace) with
    | [] => none
    | c :: _ => some c)

/-- Branch `B`: grouped number, optional whitespace, literal `USD`.  The
engine backtracks over the number's extent until `USD` follows. -/
def tryBranchB (s : List Char) : Option (List Char × List Char) :=
  (num1Candidates s).findSome? (fun c =>
    match c.2.dropWhile pyIsSpace with
    | 'U' :: 'S' :: 'D' :: rest => some (c.1, rest)
    | _ => none)

/-- `re.findall` scan: at each position try branch `A` then branch `B`;
on a match, emit the captured token and resume after the match, otherwise
advance one character. -/
def pyscan : List Char → Nat → List (List Char)
  | _, 0 => []
  | [], _ => []
  | s@(_ :: rest), fuel + 1 =>
      match tryBranchA s with
      | some (tok, r) => tok :: pyscan r fuel
      | none =>
          match tryBranchB s with
          | some (tok, r) => tok :: pyscan r fuel
          | none => pyscan rest fuel

/-- Numeric value of a digit list, most significant first. -/
def digitsToNat (s : List Char) : Nat :=
  s.foldl (fun n c => 10 * n + (c.toNat - 48)) 0

/-- The decimal-literal structure of `val_str.replace(",", "")`: integer part,
fraction part and fraction length; `none` when the comma-stripped token is not
a decimal numeral (the `except ValueError` case). -/
def decParts? (tok : List Char) : Option (Nat × Nat × Nat) :=
  let s := tok.filter (fun c => !(c = ','))
  let intPart := s.takeWhile Char.isDigit
  let rest := s.dropWhile Char.isDigit
  match rest with
  | [] => if intPart.isEmpty then none else some (digitsToNat intPart, 0, 0)
  | '.' :: frac =>
      if frac.all Char.isDigit && !(intPart.isEmpty && frac.isEmpty) then
        some (digitsToNat intPart, digitsToNat frac, frac.length)
      else none
  | _ => none

/-- `float(val_str.replace(",", ""))` guarded by `try/except`: the rational
value of the comma-stripped decimal token, `none` when it fails to parse. -/
def parseDecimal? (tok : List Char) : Option ℚ :=
  (decParts? tok).map (fun p =>
    if p.2.2 = 0 then (p.1 : ℚ) else (p.1 : ℚ) + (p.2.1 : ℚ) / ((10 : ℚ) ^ p.2.2))

/-- `extract_financials` (app.py lines 30-52): scan the text for the pattern,
convert each captured token, silently dropping tokens that fail to parse. -/
def extract_financials (text : List Char) : List ℚ :=
  (pyscan text text.length).filterMap parseDecimal?

/-- Whether a token is, in its entirety, a valid grouped number
`[0-9]{1,3}(?:,[0-9]{3})*(?:\.[0-9]{2})?` (some candidate consumes the whole
token). -/
def isGroupedNumberToken (s : List Char) : Bool :=
  (num1Candidates s).any (fun c => c.2.isEmpty)

/-! ## Blacklist matching (app.py lines 189-195)

`re.search(r"\b" + re.escape(bad_vendor) + r"\b", extracted_text, re.IGNORECASE)`:
the escaped vendor name is a literal, so the pattern matches exactly when the
name occurs (case-insensitively) at some position with a word boundary on each
side.  `\b` holds at a position iff exactly one of the adjacent characters is
a word character (`[A-Za-z0-9_]`, with the string edges counting as
non-word). -/

/-- Word characters for `\b` / `\w`. -/
def isWordChar (c : Char) : Bool := c.isAlphanum || c = '_'

/-- Whether the character at index `i` (if any) is a word character. -/
def wordAt (s : List Char) (i : Nat) : Bool :=
  match s[i]? with
  | some c => isWordChar c
  | none => false

/-- Whether the character just before position `i` is a word character. -/
def wordBefore (s : List Char) : Nat → Bool
  | 0 => false
  | i + 1 => wordAt s i

/-- `\b` at position `i` of `s` (positions run from 0 to `s.length`). -/
def wordBoundary (s : List Char) (i : Nat) : Bool :=
  wordBefore s i != wordAt s i

/-- Case-insensitive list comparison (`re.IGNORECASE`). -/
def lowerEq (a b : List Char) : Bool :=
  (a.map Char.toLower) == (b.map Char.toLower)

/-- `re.search` of `\b<literal v>\b` with `re.IGNORECASE` over `text`. -/
def wholeWordMatch (v text : List Char) : Bool :=
  (List.range (text.length + 1)).any (fun i =>
    lowerEq ((text.drop i).take v.length) v &&
      wordBoundary text i && wordBoundary text (i + v.length))

/-! ## Risk Scoring Engine (app.py lines 148-215) -/

/-- Outcome of the Text Extractor for one document: the concatenated page
text, or the caught exception message (in which case the code sets
`extracted_text = ""`). -/
inductive Extraction where
  | ok (text : List Char)
  | err (msg : List Char)
deriving DecidableEq

/-- The `extracted_text` variable after section A of the loop. -/
def extractedTextOf : Extraction → List Char
  | .ok t => t
  | .err _ => []

/-- The `error_msg` variable after section A of the loop. -/
def errorMsgOf : Extraction → Option (List Char)
  | .ok _ => none
  | .err m => some m

/-- `amounts_found`: financial extraction is skipped when an error occurred. -/
def amountsFound (ext : Extraction) : List ℚ :=
  match errorMsgOf ext with
  | some _ => []
  | none => extract_financials (extractedTextOf ext)

/-- Python `max(xs) if xs else 0.0`. -/
def pymax : List ℚ → ℚ
  | [] => 0
  | a :: rest => rest.foldl max a

/-- `total_amount` (app.py line 169). -/
def totalAmount (ext : Extraction) : ℚ :=
  pymax (amountsFound ext)

/-- An ASCII apostrophe. -/
def squote : Char := Char.ofNat 39

/-- Reason string of the extractor-error branch: `f"⚠️ {error_msg}"`. -/
def errorReasonOf (m : List Char) : List Char :=
  "⚠️ ".toList ++ m

/-- Reason string of the zero-total branch. -/
def noAmountsReason : List Char :=
  "Extraction Failed: No dollar amounts detected".toList

/-- Digits grouped in threes (input is the digit list, least significant
first after the caller reverses). -/
def chunk3 : List Char → List (List Char)
  | [] => []
  | a :: b :: c :: rest => [a, b, c] :: chunk3 rest
  | xs => [xs]

/-- Python `f"{q:,.2f}"` for the non-negative totals of this pipeline:
two fractional digits and thousands separators.  (Ties at half a cent are
rounded up; the pipeline only formats amounts that are exact in cents.) -/
def formatMoney (q : ℚ) : List Char :=
  let cents : Nat := (q * 100 + 1 / 2).floor.toNat
  let ipDigits := Nat.toDigits 10 (cents / 100)
  let grouped := List.intercalate [','] (((chunk3 ipDigits.reverse).map List.reverse).reverse)
  grouped ++ ['.'] ++ (if cents % 100 < 10 then ['0'] else []) ++ Nat.toDigits 10 (cents % 100)

/-- Reason string of the threshold branch:
`f"Amount (${total_amount:,.2f}) exceeds threshold"`. -/
def thresholdReason (total : ℚ) : List Char :=
  "Amount ($".toList ++ formatMoney total ++ ") exceeds threshold".toList

/-- Reason string of a blacklist hit:
`f"Vendor '{bad_vendor}' found on Watchlist"`. -/
def vendorReason (v : List Char) : List Char :=
  "Vendor ".toList ++ [squote] ++ v ++ [squote] ++ " found on Watchlist".toList

/-- Section C.1, the error checks (`if error_msg: ... elif total_amount == 0: ...`),
threading the `(risk_score, reasons)` state. -/
def errorStep (msg? : Option (List Char)) (total : ℚ)
    (st : Nat × List (List Char)) : Nat × List (List Char) :=
  match msg? with
  | some m => (st.1 + 25, st.2 ++ [errorReasonOf m])
  | none => if total = 0 then (st.1 + 25, st.2 ++ [noAmountsReason]) else st

/-- Section C.2, the high-value check (`if total_amount > audit_threshold`). -/
def thresholdStep (thr total : ℚ) (st : Nat × List (List Char)) :
    Nat × List (List Char) :=
  if total > thr then (st.1 + 50, st.2 ++ [thresholdReason total]) else st

/-- Section C.3, the blacklist loop (`for bad_vendor in vendor_blacklist`). -/
def blacklistStep (bl : List (List Char)) (text : List Char)
    (st : Nat × List (List Char)) : Nat × List (List Char) :=
  bl.foldl (fun acc v =>
    if wholeWordMatch v text then (acc.1 + 100, acc.2 ++ [vendorReason v]) else acc) st

/-- The `(risk_score, reasons)` pair after section C of the loop. -/
def riskState (thr : ℚ) (bl : List (List Char)) (ext : Extraction) :
    Nat × List (List Char) :=
  blacklistStep bl (extractedTextOf ext)
    (thresholdStep thr (totalAmount ext)
      (errorStep (errorMsgOf ext) (totalAmount ext) (0, [])))

/-- Section D, status determination (app.py lines 197-206). -/
def statusOf (score : Nat) : List Char :=
  if 100 ≤ score then "High Risk".toList
  else if 50 ≤ score then "Medium Risk".toList
  else if 0 < score then "Medium Risk".toList
  else "Approved".toList

/-- The per-document audit outcome logged in section E. -/
structure AuditResult where
  total_amount : ℚ
  risk_score : Nat
  status : List Char
  reasons : List (List Char)
deriving DecidableEq

/-- One iteration of the document loop (app.py lines 148-215), given the
Text Extractor's outcome for the document. -/
def processDocument (thr : ℚ) (bl : List (List Char)) (ext : Extraction) :
    AuditResult :=
  let st := riskState thr bl ext
  ⟨totalAmount ext, st.1, statusOf st.1, st.2⟩

/-! ## Batch orchestration and CSV export (app.py lines 133-248) -/

/-- A CSV cell of the audit log (the DataFrame columns hold strings, the
float total and the integer score). -/
inductive Cell where
  | str (s : List Char)
  | rat (q : ℚ)
  | num (n : Nat)
deriving DecidableEq

/-- `"; ".join(reasons)`. -/
def joinSemicolon (rs : List (List Char)) : List Char :=
  List.intercalate "; ".toList rs

/-- The dict keys of each `master_audit_log` entry (app.py lines 209-215),
in insertion order. -/
def auditFieldNames : List (List Char) :=
  ["Filename".toList, "Total Amount".toList, "Status".toList,
   "Risk Score".toList, "Issues".toList]

/-- One `master_audit_log` entry, as the row of cell values in field order. -/
def recordRow (filename : List Char) (r : AuditResult) : List Cell :=
  [.str filename, .rat r.total_amount, .str r.status, .num r.risk_score,
   .str (joinSemicolon r.reasons)]

/-- The document loop over a batch: one result per uploaded file, in upload
order (a failed extraction contributes its row like any other document). -/
def runBatch (thr : ℚ) (bl : List (List Char))
    (docs : List (List Char × Extraction)) : List (List Char × AuditResult) :=
  docs.map (fun d => (d.1, processDocument thr bl d.2))

/-- `convert_df_to_csv` (app.py lines 54-58): `df.to_csv(index=False)` of the
audit log — a header row of the field names followed by one row per document,
no index column. -/
def convert_df_to_csv (log : List (List Char × AuditResult)) :
    List (List Cell) :=
  (auditFieldNames.map Cell.str) :: log.map (fun d => recordRow d.1 d.2)

/-! ## The specification's Total Resolver (spec §4.3)

`app.py` resolves the total as the plain maximum of all detected amounts;
the specification instead describes a keyword-context algorithm.  The
following definitions follow the specification's words, to be compared with
`totalAmount` above. -/

/-- Resolution methods named by the specification. -/
inductive ResolutionMethod where
  | KeywordMatch
  | MaxFallback
deriving DecidableEq

/-- The fixed keyword set of spec §4.3 step 3. -/
def specTotalKeywords : List (List Char) :=
  ["total".toList, "amount due".toList, "amount payable".toList,
   "balance due".toList, "grand total".toList, "invoice total".toList]

/-- Substring containment test. -/
def containsSub (hay pat : List Char) : Bool :=
  (List.range (hay.length + 1)).any (fun i => ((hay.drop i).take pat.length) == pat)

/-- Whether a line's lowercase form contains one of the keywords. -/
def lineHasKeyword (l : List Char) : Bool :=
  specTotalKeywords.any (fun k => containsSub (l.map Char.toLower) k)

/-- Modelled from the spec: the keyword-context Total Resolver of §4.3,
which has no counterpart in `app.py` (the code keeps only the max-fallback
heuristic).  Split into lines, prefer amounts on keyword lines, fall back to
the maximum of all amounts, else 0. -/
def specResolveTotal (text : List Char) : ℚ × ResolutionMethod :=
  let lines := text.splitOn '\n'
  let hi := (lines.filter lineHasKeyword).flatMap extract_financials
  let all := lines.flatMap extract_financials
  if !hi.isEmpty then (pymax hi, .KeywordMatch)
  else if !all.isEmpty then (pymax all, .MaxFallback)
  else (0, .MaxFallback)

/-- The AuditResult field names claimed in spec §6. -/
def specAuditFieldNames : List (List Char) :=
  ["Filename".toList, "Detected Total".toList, "Logic Used".toList,
   "Status".toList, "Risk Score".toList, "Issues".toList]

/-! ## Derived views of the scoring engine

The sequential `risk_score += … ; reasons.append(…)` program is equal to a
sum of independent rule contributions; the following definitions name the
three contributions and the lemmas below prove the decomposition. -/

/-- Contribution of the error checks (C.1) to the score. -/
def errorScoreOf : Option (List Char) → ℚ → Nat
  | some _, _ => 25
  | none, total => if total = 0 then 25 else 0

/-- Reasons appended by the error checks (C.1). -/
def errorReasonsOf : Option (List Char) → ℚ → List (List Char)
  | some m, _ => [errorReasonOf m]
  | none, total => if total = 0 then [noAmountsReason] else []

/-- Contribution of the high-value check (C.2) to the score. -/
def thresholdScoreOf (thr total : ℚ) : Nat :=
  if total > thr then 50 else 0

/-- Reasons appended by the high-value check (C.2). -/
def thresholdReasonsOf (thr total : ℚ) : List (List Char) :=
  if total > thr then [thresholdReason total] else []

/-- The blacklist entries that match the document text, in configuration
order. -/
def matchedVendors (bl : List (List Char)) (text : List Char) : List (List Char) :=
  bl.filter (fun v => wholeWordMatch v text)

lemma le_foldl_max (l : List ℚ) : ∀ a : ℚ, a ≤ l.foldl max a := by
  induction l with
  | nil => intro a; simp
  | cons b t ih =>
      intro a
      simp only [List.foldl_cons]
      exact le_trans (le_max_left a b) (ih (max a b))

lemma mem_le_foldl_max (l : List ℚ) : ∀ (a x : ℚ), x ∈ l → x ≤ l.foldl max a := by
  induction l with
  | nil => intro a x hx; cases hx
  | cons b t ih =>
      intro a x hx
      simp only [List.foldl_cons]
      rcases List.mem_cons.mp hx with h | h
      · subst h; exact le_trans (le_max_right a x) (le_foldl_max t _)
      · exact ih _ x h

lemma foldl_max_mem (l : List ℚ) : ∀ a : ℚ, l.foldl max a ∈ a :: l := by
  induction l with
  | nil => intro a; simp
  | cons b t ih =>
      intro a
      simp only [List.foldl_cons]
      rcases List.mem_cons.mp (ih (max a b)) with h | h
      · rcases max_choice a b with h2 | h2 <;> rw [h, h2]
        · exact List.mem_cons_self _ _
        · exact List.mem_cons_of_mem _ (List.mem_cons_self _ _)
      · exact List.mem_cons_of_mem _ (List.mem_cons_of_mem _ h)

lemma le_pymax {l : List ℚ} {x : ℚ} (hx : x ∈ l) : x ≤ pymax l := by
  cases l with
  | nil => cases hx
  | cons a t =>
      rcases List.mem_cons.mp hx with h | h
      · subst h; exact le_foldl_max t x
      · exact mem_le_foldl_max t a x h

lemma pymax_mem {l : List ℚ} (h : l ≠ []) : pymax l ∈ l := by
  cases l with
  | nil => exact absurd rfl h
  | cons a t => exact foldl_max_mem t a

lemma errorStep_eq (msg? : Option (List Char)) (total : ℚ)
    (st : Nat × List (List Char)) :
    errorStep msg? total st
      = (st.1 + errorScoreOf msg? total, st.2 ++ errorReasonsOf msg? total) := by
  cases msg? with
  | some m => rfl
  | none =>
      simp only [errorStep, errorScoreOf, errorReasonsOf]
      by_cases h : total = 0 <;> simp [h]

lemma thresholdStep_eq (thr total : ℚ) (st : Nat × List (List Char)) :
    thresholdStep thr total st
      = (st.1 + thresholdScoreOf thr total, st.2 ++ thresholdReasonsOf thr total) := by
  unfold thresholdStep thresholdScoreOf thresholdReasonsOf
  split_ifs <;> simp

lemma blacklistStep_eq (bl : List (List Char)) (text : List Char) :
    ∀ st : Nat × List (List Char),
      blacklistStep bl text st
        = (st.1 + 100 * (matchedVendors bl text).length,
           st.2 ++ (matchedVendors bl text).map vendorReason) := by
  induction bl with
  | nil => intro st; simp [blacklistStep, matchedVendors]
  | cons v t ih =>
      intro st
      have hstep : blacklistStep (v :: t) text st
          = blacklistStep t text
              (if wholeWordMatch v text then (st.1 + 100, st.2 ++ [vendorReason v])
               else st) := rfl
      rw [hstep]
      by_cases h : wholeWordMatch v text
      · rw [if_pos h, ih]
        simp only [matchedVendors, List.filter_cons, h, if_pos, List.length_cons,
          List.map_cons]
        refine Prod.ext ?_ ?_
        · simp; omega
        · simp
      · rw [if_neg h, ih]
        simp only [matchedVendors, List.filter_cons, h]
        simp

lemma riskState_eq (thr : ℚ) (bl : List (List Char)) (ext : Extraction) :
    riskState thr bl ext
      = (errorScoreOf (errorMsgOf ext) (totalAmount ext)
           + thresholdScoreOf thr (totalAmount ext)
           + 100 * (matchedVendors bl (extractedTextOf ext)).length,
         errorReasonsOf (errorMsgOf ext) (totalAmount ext)
           ++ thresholdReasonsOf thr (totalAmount ext)
           ++ (matchedVendors bl (extractedTextOf ext)).map vendorReason) := by
  unfold riskState
  rw [errorStep_eq, thresholdStep_eq, blacklistStep_eq]
  simp [List.append_assoc, Nat.add_assoc]

lemma processDocument_total (thr : ℚ) (bl : List (List Char)) (ext : Extraction) :
    (processDocument thr bl ext).total_amount = totalAmount ext := rfl

lemma processDocument_score (thr : ℚ) (bl : List (List Char)) (ext : Extraction) :
    (processDocument thr bl ext).risk_score
      = errorScoreOf (errorMsgOf ext) (totalAmount ext)
        + thresholdScoreOf thr (totalAmount ext)
        + 100 * (matchedVendors bl (extractedTextOf ext)).length := by
  show (riskState thr bl ext).1 = _
  rw [riskState_eq]

lemma processDocument_reasons (thr : ℚ) (bl : List (List Char)) (ext : Extraction) :
    (processDocument thr bl ext).reasons
      = errorReasonsOf (errorMsgOf ext) (totalAmount ext)
        ++ thresholdReasonsOf thr (totalAmount ext)
        ++ (matchedVendors bl (extractedTextOf ext)).map vendorReason := by
  show (riskState thr bl ext).2 = _
  rw [riskState_eq]

lemma processDocument_status (thr : ℚ) (bl : List (List Char)) (ext : Extraction) :
    (processDocument thr bl ext).status
      = statusOf (processDocument thr bl ext).risk_score := rfl

lemma errorScoreOf_le (msg? : Option (List Char)) (total : ℚ) :
    errorScoreOf msg? total ≤ 25 := by
  cases msg? with
  | some m => exact le_refl _
  | none => simp only [errorScoreOf]; split_ifs <;> omega

lemma thresholdScoreOf_le (thr total : ℚ) : thresholdScoreOf thr total ≤ 50 := by
  unfold thresholdScoreOf; split_ifs <;> omega

lemma vendorReason_head (v : List Char) : (vendorReason v).head? = some 'V' := rfl

lemma errorReasonOf_head (m : List Char) : (errorReasonOf m).head? = some '⚠' := rfl

lemma noAmountsReason_head : noAmountsReason.head? = some 'E' := rfl

lemma thresholdReason_head (q : ℚ) : (thresholdReason q).head? = some 'A' := rfl

lemma vendorReason_notin_errorReasons (v : List Char) (msg? : Option (List Char))
    (total : ℚ) : vendorReason v ∉ errorReasonsOf msg? total := by
  intro hmem
  cases msg? with
  | some m =>
      have h := List.mem_singleton.mp hmem
      have := congrArg List.head? h
      rw [vendorReason_head, errorReasonOf_head] at this
      exact absurd this (by decide)
  | none =>
      simp only [errorReasonsOf] at hmem
      split_ifs at hmem
      · have h := List.mem_singleton.mp hmem
        have := congrArg List.head? h
        rw [vendorReason_head, noAmountsReason_head] at this
        exact absurd this (by decide)
      · cases hmem

lemma vendorReason_notin_thresholdReasons (v : List Char) (thr total : ℚ) :
    vendorReason v ∉ thresholdReasonsOf thr total := by
  intro hmem
  simp only [thresholdReasonsOf] at hmem
  split_ifs at hmem
  · have h := List.mem_singleton.mp hmem
    have := congrArg List.head? h
    rw [vendorReason_head, thresholdReason_head] at this
    exact absurd this (by decide)
  · cases hmem

lemma vendorReason_inj : Function.Injective vendorReason := by
  intro a b h
  unfold vendorReason at h
  have h1 := List.append_cancel_right h
  have h2 := List.append_cancel_right h1
  exact List.append_cancel_left h2

lemma count_map_vendorReason (l : List (List Char)) (v : List Char) :
    (l.map vendorReason).count (vendorReason v) = l.count v := by
  induction l with
  | nil => rfl
  | cons a t ih =>
      by_cases hav : a = v
      · subst hav
        simp [List.count_cons, ih]
      · have hne : vendorReason a ≠ vendorReason v := fun hh => hav (vendorReason_inj hh)
        simp [List.count_cons, hav, hne, ih]

lemma matchedVendors_sub (bl : List (List Char)) (text : List Char) :
    ∀ v ∈ matchedVendors bl text, v ∈ bl ∧ wholeWordMatch v text = true := by
  intro v hv
  exact ⟨(List.mem_filter.mp hv).1, (List.mem_filter.mp hv).2⟩

lemma matchedVendors_ne_nil_iff (bl : List (List Char)) (text : List Char) :
    matchedVendors bl text ≠ [] ↔ ∃ v ∈ bl, wholeWordMatch v text = true := by
  rw [Ne, matchedVendors, List.filter_eq_nil_iff]
  push_neg
  constructor
  · rintro ⟨v, hv, hm⟩; exact ⟨v, hv, by simpa using hm⟩
  · rintro ⟨v, hv, hm⟩; exact ⟨v, hv, by simpa using hm⟩

lemma statusOf_high_iff (s : Nat) : statusOf s = "High Risk".toList ↔ 100 ≤ s := by
  unfold statusOf
  split_ifs with h1 h2 h3
  · simp [h1]
  · exact iff_of_false (by decide) h1
  · exact iff_of_false (by decide) h1
  · exact iff_of_false (by decide) h1

/-- Evaluation helper: once the scan result is known, `extract_financials`
is the token-wise conversion. -/
lemma extract_eval (text : List Char) (toks : List (List Char))
    (h : pyscan text text.length = toks) :
    extract_financials text = toks.filterMap parseDecimal? := by
  rw [extract_financials, h]

example : extract_financials "$500".toList = [500] := by decide
example : extract_financials "500".toList = [] := by decide
example : extract_financials "500 USD".toList = [500] := by decide
example : extract_financials "USD 42".toList = [42] := by decide
example : extract_financials "$1,0".toList = [1] := by decide
example : extract_financials "$1,0000".toList = [1000] := by decide
example : extract_financials "$2,500 and $3".toList = [2500, 3] := by decide
example : extract_financials "1234 USD".toList = [234] := by decide
example : extract_financials "$0".toList = [0] := by decide
example : wholeWordMatch "Bolton".toList "Bolton Inc".toList = true := by decide
example : wholeWordMatch "Bolton".toList "Boltonville Ave".toList = false := by decide
example : wholeWordMatch "bolton".toList "Payment to Bolton Inc".toList = true := by decide

/-! ## Claims -/

/-- Claim C1, counterexample: the code does not implement the keyword-context
total resolution.  On `"Total: $50\n$100"` the keyword-line pool is `[50]`,
so the spec's resolver returns 50 with method KeywordMatch, while the code's
`total_amount` is the global maximum 100. -/
theorem C1_keyword_resolver_counterexample :
    totalAmount (Extraction.ok "Total: $50\n$100".toList) = 100
    ∧ specResolveTotal "Total: $50\n$100".toList = (50, ResolutionMethod.KeywordMatch)
    ∧ totalAmount (Extraction.ok "Total: $50\n$100".toList)
        ≠ (specResolveTotal "Total: $50\n$100".toList).1 := by
  have h1 : amountsFound (Extraction.ok "Total: $50\n$100".toList) = [50, 100] := by
    decide
  have h2 : totalAmount (Extraction.ok "Total: $50\n$100".toList) = 100 := by
    rw [totalAmount, h1]
    show max (50 : ℚ) 100 = 100
    exact max_eq_right (by norm_num)
  have h3 : specResolveTotal "Total: $50\n$100".toList
      = (50, ResolutionMethod.KeywordMatch) := by decide
  refine ⟨h2, h3, ?_⟩
  rw [h2, h3]
  norm_num

/-- Claim C1 (amended): the resolved total is the maximum of all amounts
detected anywhere in the text, and 0 when no amount is detected; there is no
keyword-context preference and no resolution-method output. -/
theorem C1_total_is_max_of_all_amounts (text : List Char) :
    (extract_financials text = [] → totalAmount (Extraction.ok text) = 0)
    ∧ (∀ a ∈ extract_financials text, a ≤ totalAmount (Extraction.ok text))
    ∧ (extract_financials text ≠ []
        → totalAmount (Extraction.ok text) ∈ extract_financials text) := by
  have hA : amountsFound (Extraction.ok text) = extract_financials text := rfl
  refine ⟨?_, ?_, ?_⟩
  · intro h; rw [totalAmount, hA, h]; rfl
  · intro a ha; rw [totalAmount, hA]; exact le_pymax ha
  · intro h; rw [totalAmount, hA]; exact pymax_mem h

/-- Claim C1, witness for the amended statement at `"$2,500 and $3"`. -/
theorem C1_total_is_max_of_all_amounts_witness :
    extract_financials "$2,500 and $3".toList ≠ []
    ∧ (3 : ℚ) ∈ extract_financials "$2,500 and $3".toList
    ∧ (3 : ℚ) ≤ totalAmount (Extraction.ok "$2,500 and $3".toList)
    ∧ totalAmount (Extraction.ok "$2,500 and $3".toList)
        ∈ extract_financials "$2,500 and $3".toList :=
  ⟨by decide, by decide,
   (C1_total_is_max_of_all_amounts _).2.1 3 (by decide),
   (C1_total_is_max_of_all_amounts _).2.2 (by decide)⟩

/-- Claim C2: with a non-negative threshold, the status is High Risk exactly
when some configured vendor name matches the document text as a whole word;
equivalently, exactly when a blacklist reason is present and the blacklist
rule contributed at least 100.  The +25 and +50 rules alone cannot reach
High Risk. -/
theorem C2_highrisk_iff_blacklist_match (thr : ℚ) (bl : List (List Char))
    (ext : Extraction) (hthr : 0 ≤ thr) :
    ((processDocument thr bl ext).status = "High Risk".toList
      ↔ ∃ v ∈ bl, wholeWordMatch v (extractedTextOf ext) = true)
    ∧ ((processDocument thr bl ext).status = "High Risk".toList
      ↔ (∃ v ∈ bl, vendorReason v ∈ (processDocument thr bl ext).reasons)
        ∧ 100 ≤ 100 * (matchedVendors bl (extractedTextOf ext)).length) := by
  have hE := errorScoreOf_le (errorMsgOf ext) (totalAmount ext)
  have hT := thresholdScoreOf_le thr (totalAmount ext)
  have hs := processDocument_score thr bl ext
  have hmatch : (processDocument thr bl ext).status = "High Risk".toList
      ↔ 1 ≤ (matchedVendors bl (extractedTextOf ext)).length := by
    rw [processDocument_status, statusOf_high_iff, hs]
    constructor
    · intro h; omega
    · intro h; omega
  have hex : 1 ≤ (matchedVendors bl (extractedTextOf ext)).length
      ↔ ∃ v ∈ bl, wholeWordMatch v (extractedTextOf ext) = true := by
    rw [← matchedVendors_ne_nil_iff]
    constructor
    · intro h hnil; rw [hnil] at h; simp at h
    · intro h
      have := List.length_pos.mpr h
      omega
  constructor
  · rw [hmatch]; exact hex
  · rw [hmatch]
    constructor
    · intro h
      have hpos : 0 < (matchedVendors bl (extractedTextOf ext)).length := by omega
      obtain ⟨w, hw⟩ := List.exists_mem_of_length_pos hpos
      have hsub := matchedVendors_sub bl (extractedTextOf ext) w hw
      refine ⟨⟨w, hsub.1, ?_⟩, by omega⟩
      rw [processDocument_reasons]
      simp only [List.mem_append]
      right
      exact List.mem_map_of_mem _ hw
    · rintro ⟨-, h100⟩
      omega

/-- Claim C2, witness: a blacklisted vendor in the text yields High Risk. -/
theorem C2_highrisk_iff_blacklist_match_witness :
    (processDocument 500 ["Bolton".toList]
      (Extraction.ok "Payment to Bolton Inc for $10".toList)).status
        = "High Risk".toList :=
  ((C2_highrisk_iff_blacklist_match 500 ["Bolton".toList]
      (Extraction.ok "Payment to Bolton Inc for $10".toList) (by norm_num)).1).mpr
    ⟨"Bolton".toList, by decide, by decide⟩

/-- Claim C3: a zero resolved total always comes with an extraction-failure
reason — either the caught error message or the no-amounts-detected
reason. -/
theorem C3_zero_total_has_failure_reason (thr : ℚ) (bl : List (List Char))
    (ext : Extraction) (h : (processDocument thr bl ext).total_amount = 0) :
    (∃ m, errorMsgOf ext = some m
        ∧ errorReasonOf m ∈ (processDocument thr bl ext).reasons)
    ∨ noAmountsReason ∈ (processDocument thr bl ext).reasons := by
  rw [processDocument_total] at h
  cases ext with
  | err m =>
      left
      refine ⟨m, rfl, ?_⟩
      rw [processDocument_reasons]
      simp [errorReasonsOf, errorMsgOf]
  | ok t =>
      right
      rw [processDocument_reasons]
      simp only [errorMsgOf, errorReasonsOf]
      rw [if_pos h]
      simp

/-- Claim C3, witness: a text with no dollar amounts. -/
theorem C3_zero_total_has_failure_reason_witness :
    (processDocument 500 [] (Extraction.ok "No dollar values here".toList)).total_amount = 0
    ∧ noAmountsReason
        ∈ (processDocument 500 [] (Extraction.ok "No dollar values here".toList)).reasons := by
  have h0 : (processDocument 500 []
      (Extraction.ok "No dollar values here".toList)).total_amount = 0 := by decide
  refine ⟨h0, ?_⟩
  rcases C3_zero_total_has_failure_reason 500 [] _ h0 with ⟨m, hm, -⟩ | h
  · simp [errorMsgOf] at hm
  · exact h

/-- Claim C5: score 0 is Approved, a positive score below 100 is Medium Risk,
and 100 or more is High Risk; the per-document status is exactly this
function of the risk score. -/
theorem C5_status_tiers (s : Nat) :
    (s = 0 → statusOf s = "Approved".toList)
    ∧ (0 < s → s < 100 → statusOf s = "Medium Risk".toList)
    ∧ (100 ≤ s → statusOf s = "High Risk".toList)
    ∧ (∀ (thr : ℚ) (bl : List (List Char)) (ext : Extraction),
        (processDocument thr bl ext).status
          = statusOf (processDocument thr bl ext).risk_score) := by
  refine ⟨?_, ?_, ?_, fun thr bl ext => rfl⟩
  · intro h; subst h; decide
  · intro h1 h2
    unfold statusOf
    rw [if_neg (by omega)]
    by_cases h3 : 50 ≤ s
    · rw [if_pos h3]
    · rw [if_neg h3, if_pos h1]
  · intro h; unfold statusOf; rw [if_pos h]

/-- Claim C5, witness at scores 75, 125 and 0. -/
theorem C5_status_tiers_witness :
    (0 < 75 ∧ 75 < 100 ∧ statusOf 75 = "Medium Risk".toList)
    ∧ (100 ≤ 125 ∧ statusOf 125 = "High Risk".toList)
    ∧ statusOf 0 = "Approved".toList :=
  ⟨⟨by decide, by decide, (C5_status_tiers 75).2.1 (by decide) (by decide)⟩,
   ⟨by decide, (C5_status_tiers 125).2.2.1 (by decide)⟩,
   (C5_status_tiers 0).1 rfl⟩

/-- Claim C4: the risk score is the sum of the three independent rule
contributions in the fixed order — at most +25 from the error checks (exactly
25 iff the extractor failed or the total is 0, and the two branches never
both contribute), +50 iff the total exceeds the threshold, +100 per matching
vendor — and the reasons list is the concatenation of the rules' reasons in
evaluation order. -/
theorem C4_score_decomposition (thr : ℚ) (bl : List (List Char))
    (ext : Extraction) :
    (processDocument thr bl ext).risk_score
        = errorScoreOf (errorMsgOf ext) (totalAmount ext)
          + thresholdScoreOf thr (totalAmount ext)
          + 100 * (matchedVendors bl (extractedTextOf ext)).length
    ∧ errorScoreOf (errorMsgOf ext) (totalAmount ext) ≤ 25
    ∧ (errorScoreOf (errorMsgOf ext) (totalAmount ext) = 25
        ↔ (errorMsgOf ext ≠ none ∨ totalAmount ext = 0))
    ∧ thresholdScoreOf thr (totalAmount ext)
        = (if totalAmount ext > thr then 50 else 0)
    ∧ (processDocument thr bl ext).reasons
        = errorReasonsOf (errorMsgOf ext) (totalAmount ext)
          ++ thresholdReasonsOf thr (totalAmount ext)
          ++ (matchedVendors bl (extractedTextOf ext)).map vendorReason := by
  refine ⟨processDocument_score thr bl ext, errorScoreOf_le _ _, ?_, rfl,
    processDocument_reasons thr bl ext⟩
  cases ext with
  | err m => simp [errorScoreOf, errorMsgOf]
  | ok t =>
      simp only [errorScoreOf, errorMsgOf]
      split_ifs with h
      · simp [h]
      · simp [h]

/-- Claim C6: the blacklist rule fires exactly when the literal name occurs
as a whole word (word-boundary anchored, case-insensitive) in the document
text; each matching vendor contributes its own +100 and its own reason, in
configuration order.  "Bolton" matches in "Bolton Inc" but not inside
"Boltonville". -/
theorem C6_wholeword_blacklist (thr : ℚ) (bl : List (List Char))
    (v text : List Char) (ext : Extraction) :
    (wholeWordMatch v text = true
      ↔ ∃ i, i ≤ text.length
          ∧ lowerEq ((text.drop i).take v.length) v = true
          ∧ wordBoundary text i = true
          ∧ wordBoundary text (i + v.length) = true)
    ∧ (processDocument thr bl ext).reasons
        = errorReasonsOf (errorMsgOf ext) (totalAmount ext)
          ++ thresholdReasonsOf thr (totalAmount ext)
          ++ ((bl.filter (fun w => wholeWordMatch w (extractedTextOf ext))).map
                vendorReason)
    ∧ (processDocument thr bl ext).risk_score
        = errorScoreOf (errorMsgOf ext) (totalAmount ext)
          + thresholdScoreOf thr (totalAmount ext)
          + 100 * (bl.filter (fun w => wholeWordMatch w (extractedTextOf ext))).length
    ∧ wholeWordMatch "Bolton".toList "Bolton Inc".toList = true
    ∧ wholeWordMatch "Bolton".toList "Boltonville".toList = false
    ∧ wholeWordMatch "bolton".toList "Payment to Bolton Inc".toList = true := by
  refine ⟨?_, processDocument_reasons thr bl ext, processDocument_score thr bl ext,
    by decide, by decide, by decide⟩
  unfold wholeWordMatch
  rw [List.any_eq_true]
  constructor
  · rintro ⟨i, hi, h⟩
    rw [List.mem_range] at hi
    simp only [Bool.and_eq_true] at h
    exact ⟨i, by omega, h.1.1, h.1.2, h.2⟩
  · rintro ⟨i, hi, h1, h2, h3⟩
    refine ⟨i, List.mem_range.mpr (by omega), ?_⟩
    simp [h1, h2, h3]

/-- Claim C7: the detector's token grammar — "1,0" and "1,0000" are not
valid grouped numbers (so the scanner extracts only their well-formed
prefixes) while "500.00" is, and only amounts adjacent to a currency marker
are recognized, in scan-position order, with grouping commas stripped before
conversion. -/
theorem C7_detector_token_grammar :
    isGroupedNumberToken "1,0".toList = false
    ∧ isGroupedNumberToken "1,0000".toList = false
    ∧ isGroupedNumberToken "500.00".toList = true
    ∧ extract_financials "$500.00".toList = [500]
    ∧ extract_financials "500.00".toList = []
    ∧ extract_financials "$1,234.56 and $2".toList = [1234.56, 2]
    ∧ extract_financials "$1,0".toList = [1]
    ∧ extract_financials "$1,0000".toList = [1000]
    ∧ parseDecimal? [] = none := by
  refine ⟨by decide, by decide, by decide, ?_, by decide, ?_, by decide, by decide,
    by decide⟩
  · rw [extract_eval _ [['5', '0', '0', '.', '0', '0']] (by decide)]
    have hd : decParts? ['5', '0', '0', '.', '0', '0'] = some (500, 0, 2) := by decide
    simp [List.filterMap_cons, List.filterMap_nil, parseDecimal?, hd]
  · rw [extract_eval _ [['1', ',', '2', '3', '4', '.', '5', '6'], ['2']] (by decide)]
    have hd1 : decParts? ['1', ',', '2', '3', '4', '.', '5', '6']
        = some (1234, 56, 2) := by decide
    have hd2 : decParts? ['2'] = some (2, 0, 0) := by decide
    simp [List.filterMap_cons, List.filterMap_nil, parseDecimal?, hd1, hd2]
    norm_num

/-- Claim C8: a batch produces exactly one result per input document, in
input order; a document whose extraction fails still yields its row, with
total 0 and the error message folded into the reasons. -/
theorem C8_batch_one_row_per_document (thr : ℚ) (bl : List (List Char))
    (docs : List (List Char × Extraction)) :
    (runBatch thr bl docs).length = docs.length
    ∧ (∀ i : Nat, (runBatch thr bl docs)[i]?
        = (docs[i]?).map (fun d => (d.1, processDocument thr bl d.2)))
    ∧ (∀ (name m : List Char), (name, Extraction.err m) ∈ docs →
        (name, processDocument thr bl (Extraction.err m)) ∈ runBatch thr bl docs
        ∧ (processDocument thr bl (Extraction.err m)).total_amount = 0
        ∧ errorReasonOf m ∈ (processDocument thr bl (Extraction.err m)).reasons) := by
  refine ⟨by simp [runBatch], ?_, ?_⟩
  · intro i
    simp [runBatch, List.getElem?_map]
  · intro name m hmem
    refine ⟨List.mem_map.mpr ⟨(name, Extraction.err m), hmem, rfl⟩, rfl, ?_⟩
    rw [processDocument_reasons]
    simp [errorMsgOf, errorReasonsOf]

/-- Claim C8, witness: a two-document batch whose second document fails. -/
theorem C8_batch_one_row_per_document_witness :
    (runBatch 500 []
        [("a.pdf".toList, Extraction.ok "$75".toList),
         ("b.pdf".toList, Extraction.err "boom".toList)]).length = 2
    ∧ ("b.pdf".toList, processDocument 500 [] (Extraction.err "boom".toList))
        ∈ runBatch 500 []
            [("a.pdf".toList, Extraction.ok "$75".toList),
             ("b.pdf".toList, Extraction.err "boom".toList)]
    ∧ errorReasonOf "boom".toList
        ∈ (processDocument 500 [] (Extraction.err "boom".toList)).reasons := by
  have h := C8_batch_one_row_per_document 500 []
    [("a.pdf".toList, Extraction.ok "$75".toList),
     ("b.pdf".toList, Extraction.err "boom".toList)]
  exact ⟨h.1, (h.2.2 "b.pdf".toList "boom".toList (by decide)).1,
    (h.2.2 "b.pdf".toList "boom".toList (by decide)).2.2⟩

/-- Claim C9, counterexample: the log's field names are
`Filename, Total Amount, Status, Risk Score, Issues`, not the claimed
`Filename, Detected Total, Logic Used, Status, Risk Score, Issues`; the CSV
header row carries the former. -/
theorem C9_fieldnames_counterexample :
    (convert_df_to_csv (runBatch 500 []
        [("a.pdf".toList, Extraction.err "bad".toList)])).head?
      = some (auditFieldNames.map Cell.str)
    ∧ auditFieldNames ≠ specAuditFieldNames :=
  ⟨rfl, by decide⟩

/-- Claim C9 (amended): each record carries exactly the fields
`Filename, Total Amount, Status, Risk Score, Issues` with Issues the reasons
joined by "; ", and the CSV export is a header row of those names plus one
row per document in order, with no index column. -/
theorem C9_csv_export_shape (thr : ℚ) (bl : List (List Char))
    (docs : List (List Char × Extraction)) :
    (convert_df_to_csv (runBatch thr bl docs)).length = docs.length + 1
    ∧ (convert_df_to_csv (runBatch thr bl docs)).head?
        = some (auditFieldNames.map Cell.str)
    ∧ (∀ row ∈ convert_df_to_csv (runBatch thr bl docs),
        row.length = auditFieldNames.length)
    ∧ (∀ i : Nat, (convert_df_to_csv (runBatch thr bl docs))[i + 1]?
        = (docs[i]?).map (fun d => recordRow d.1 (processDocument thr bl d.2)))
    ∧ (∀ (name : List Char) (r : AuditResult),
        recordRow name r
          = [Cell.str name, Cell.rat r.total_amount, Cell.str r.status,
             Cell.num r.risk_score, Cell.str (joinSemicolon r.reasons)]) := by
  refine ⟨by simp [convert_df_to_csv, runBatch], rfl, ?_, ?_, fun name r => rfl⟩
  · intro row hrow
    rcases List.mem_cons.mp hrow with h | h
    · subst h; rfl
    · obtain ⟨d, hd, hrec⟩ := List.mem_map.mp h
      rw [← hrec]
      rfl
  · intro i
    simp only [convert_df_to_csv, runBatch, List.getElem?_cons_succ,
      List.getElem?_map]
    cases docs[i]? <;> rfl

/-- Claim C9, witness for the amended statement on a one-document batch. -/
theorem C9_csv_export_shape_witness :
    (convert_df_to_csv (runBatch 500 []
        [("a.pdf".toList, Extraction.err "bad".toList)])).length = 2
    ∧ ((convert_df_to_csv (runBatch 500 []
        [("a.pdf".toList, Extraction.err "bad".toList)]))[1]?).map List.length
      = some 5 := by
  have h := C9_csv_export_shape 500 [] [("a.pdf".toList, Extraction.err "bad".toList)]
  refine ⟨h.1, ?_⟩
  rw [h.2.2.2.1 0]
  rfl

/-- Claim C10: a configured vendor name occurring once in the blacklist
contributes at most one reason (and one +100) per document, no matter how
often it occurs in the document text: the per-name reason count is
`blacklist.count name` when the name matches and 0 otherwise. -/
theorem C10_one_reason_per_vendor (thr : ℚ) (bl : List (List Char))
    (ext : Extraction) (v : List Char) (h : List.count v bl ≤ 1) :
    (processDocument thr bl ext).reasons.count (vendorReason v) ≤ 1
    ∧ (processDocument thr bl ext).reasons.count (vendorReason v)
        = (if wholeWordMatch v (extractedTextOf ext) = true
           then List.count v bl else 0)
    ∧ (matchedVendors bl (extractedTextOf ext)).count v ≤ List.count v bl := by
  have hform : (processDocument thr bl ext).reasons.count (vendorReason v)
      = (if wholeWordMatch v (extractedTextOf ext) = true
         then List.count v bl else 0) := by
    rw [processDocument_reasons, List.count_append, List.count_append]
    rw [List.count_eq_zero.mpr (vendorReason_notin_errorReasons v _ _)]
    rw [List.count_eq_zero.mpr (vendorReason_notin_thresholdReasons v _ _)]
    rw [count_map_vendorReason]
    by_cases hm : wholeWordMatch v (extractedTextOf ext) = true
    · rw [if_pos hm]
      simp only [matchedVendors]
      rw [List.count_filter (by simpa using hm)]
      omega
    · rw [if_neg hm]
      have hnot : v ∉ matchedVendors bl (extractedTextOf ext) := by
        intro hvm
        exact hm (List.mem_filter.mp hvm).2
      simp [List.count_eq_zero.mpr hnot]
  refine ⟨?_, hform, ?_⟩
  · rw [hform]; split_ifs <;> omega
  · exact List.Sublist.count_le (List.filter_sublist _) v

/-- Claim C10, witness: two occurrences of "Bolton" in the text, one reason. -/
theorem C10_one_reason_per_vendor_witness :
    List.count "Bolton".toList ["Bolton".toList] ≤ 1
    ∧ (processDocument 500 ["Bolton".toList]
        (Extraction.ok "Bolton met Bolton".toList)).reasons.count
          (vendorReason "Bolton".toList) ≤ 1 :=
  ⟨by decide,
   (C10_one_reason_per_vendor 500 ["Bolton".toList]
      (Extraction.ok "Bolton met Bolton".toList) "Bolton".toList (by decide)).1⟩

end AutoAudit
